import Mathlib

/-!
Shallow embedding of the resource-finder core pipeline
(`geo_config.py`, `routing_config.py`, `api_config.py`):
geometry bands, spatial and attribute filters over the team roster,
air-distance preselection and OSRM route ranking.

DataFrames are modelled as lists of typed rows; pandas row selection,
`sort_values`, `head`, `reset_index` and `.copy()` produce new values.
Shapely geometry is modelled by an exact rational ray-casting
point-in-polygon test (see `pointInPolygon`).
-/

namespace ResourceFinder

/-- A geographic point, (x, y) = (longitude, latitude), exact rationals. -/
abbrev Pt : Type := ℚ × ℚ

/-- A polygon ring given by its vertices in order (closing edge implicit). -/
abbrev Polygon : Type := List Pt

/-- The edges of a polygon ring: consecutive vertex pairs plus the closing edge. -/
def polygonEdges (poly : Polygon) : List (Pt × Pt) :=
  poly.zip (poly.drop 1 ++ poly.take 1)

/-- Signed cross product of (b - a) with (p - a); zero iff the three points are collinear. -/
def cross2 (a b p : Pt) : ℚ :=
  (b.1 - a.1) * (p.2 - a.2) - (b.2 - a.2) * (p.1 - a.1)

/-- `p` lies on the closed segment from `a` to `b`. -/
def onSegment (p a b : Pt) : Bool :=
  cross2 a b p == 0 &&
    decide (min a.1 b.1 ≤ p.1) && decide (p.1 ≤ max a.1 b.1) &&
    decide (min a.2 b.2 ≤ p.2) && decide (p.2 ≤ max a.2 b.2)

/-- `p` lies on the boundary of the polygon (on one of its edges). -/
def onBoundary (p : Pt) (poly : Polygon) : Bool :=
  (polygonEdges poly).any (fun e => onSegment p e.1 e.2)

/-- One step of the standard ray-casting test: does the horizontal ray to the
right of `p` cross the edge from `a` to `b`?  Exact rational arithmetic. -/
def rayCrossesEdge (p a b : Pt) : Bool :=
  (decide (p.2 < a.2) != decide (p.2 < b.2)) &&
    decide (p.1 < a.1 + (b.1 - a.1) * (p.2 - a.2) / (b.2 - a.2))

/-- Number of polygon edges crossed by the rightward ray from `p`. -/
def crossingNumber (p : Pt) (poly : Polygon) : Nat :=
  ((polygonEdges poly).filter (fun e => rayCrossesEdge p e.1 e.2)).length

/-- Exact model of shapely strict interior membership for a point and a simple
polygon: `p` is strictly inside `poly` iff it is not on the boundary and the
rightward ray from `p` crosses the edges an odd number of times.  Shapely's
`point.within(polygon)` holds exactly for interior points: a point on the
polygon's boundary is NOT `within` it. -/
def pointInPolygon (p : Pt) (poly : Polygon) : Bool :=
  !onBoundary p poly && crossingNumber p poly % 2 == 1

/-- Model of `point.within(unary_union(parts))` for a multi-polygon whose parts
are disjoint rings (the regime of isochrone bands): the point is in the interior
of the union iff it is in the interior of some part. -/
def withinUnion (parts : List Polygon) (p : Pt) : Bool :=
  parts.any (fun poly => pointInPolygon p poly)

/-- One row of the field-team roster (a `teams_gdf` row): identifiers and
attributes plus exact coordinates.  Rows with missing or non-numeric
coordinates are dropped by `teams_to_gdf` before any spatial operation, so
coordinates here are always present; `BusinessUnit` and `InternalContractor`
are both nullable (the roster comes from LEFT JOINs, so either may be
missing). -/
structure Team where
  intContractorID : Int
  contractor : String
  businessUnit : Option String
  postcode : String
  internalContractor : Option Int
  latitude : ℚ
  longitude : ℚ
  deriving DecidableEq, Repr

/-- The point geometry attached to a team row: `Point(Longitude, Latitude)`. -/
def Team.point (t : Team) : Pt := (t.longitude, t.latitude)

/-- One row of the isochrone GeoDataFrame: a minutes label and a
(multi-)polygon geometry stored as its list of constituent rings. -/
structure IsoRow where
  minutes : Int
  geom : List Polygon
  deriving DecidableEq, Repr

/-- `filter_teams_by_minutes` from `geo_config.py`: select the isochrone rows
whose `minutes` equals the requested value; if none exist return an empty
frame; otherwise union their geometry (`sel.unary_union`) and keep the teams
whose point is `within` that union. -/
def filter_teams_by_minutes (teams : List Team) (iso : List IsoRow) (minutes : Int) :
    List Team :=
  let sel := iso.filter (fun r => r.minutes == minutes)
  if sel.isEmpty then []
  else
    let parts := (sel.map IsoRow.geom).flatten
    teams.filter (fun t => withinUnion parts t.point)

/-- The constituent polygon parts of all isochrone rows carrying the requested
minutes value (the parts whose union `filter_teams_by_minutes` tests against). -/
def selectedParts (iso : List IsoRow) (minutes : Int) : List Polygon :=
  ((iso.filter (fun r => r.minutes == minutes)).map IsoRow.geom).flatten

/-- Errors raised by the embedded Python code paths. -/
inductive PyErr where
  | typeError
  | valueError
  | routingError
  deriving DecidableEq, Repr

/-- Python `str()` applied to a nullable pandas cell: `astype(str)` renders a
missing value (NaN) as the string "nan". -/
def pyStr (v : Option String) : String :=
  match v with
  | none => "nan"
  | some s => s

/-- Python string comparison on character lists: lexicographic by code point
(`ord`), as used by `list.sort()` on strings. -/
def strLeB : List Char → List Char → Bool
  | [], _ => true
  | _ :: _, [] => false
  | a :: as, b :: bs =>
      if a.toNat < b.toNat then true
      else if b.toNat < a.toNat then false
      else strLeB as bs

/-- Python string comparison lifted to `String`. -/
def pyStrLe (a b : String) : Bool := strLeB a.data b.data

/-- `list_business_units` from `geo_config.py`: drop missing values, keep the
distinct business-unit strings, sort them ascending by Python string order,
and prefix the "(Any)" sentinel.  (pandas `unique()` keeps first occurrences;
since the values are sorted afterwards only the underlying set matters, so we
use `List.dedup`.) -/
def list_business_units (df : List Team) : List String :=
  let vals := (df.filterMap Team.businessUnit).dedup
  "(Any)" :: vals.mergeSort pyStrLe

/-- `filter_by_business_unit` from `geo_config.py`: `None`, the empty string
(Python falsiness) and the "(Any)" sentinel skip the filter; otherwise keep
rows whose business unit, rendered as a string, equals the selection. -/
def filter_by_business_unit (teams : List Team) (business_unit : Option String) :
    List Team :=
  match business_unit with
  | none => teams
  | some b =>
      if b == "" || b == "(Any)" then teams
      else teams.filter (fun t => pyStr t.businessUnit == b)

/-- `filter_by_internal_flag` from `geo_config.py`: a flag of 0 or 1 filters on
the `InternalContractor` column; any other value (in particular `None`) skips
the filter.  When the filter is active, `astype(int)` converts the WHOLE
column before the mask is applied, and raises on a missing value — even in a
row the mask would drop. -/
def filter_by_internal_flag (teams : List Team) (internal_flag : Option Int) :
    Except PyErr (List Team) :=
  match internal_flag with
  | some f =>
      if f == 0 || f == 1 then
        if teams.all (fun t => t.internalContractor.isSome) then
          .ok (teams.filter (fun t => t.internalContractor == some f))
        else Except.error PyErr.valueError
      else .ok teams
  | none => .ok teams

/-- `apply_team_filters` from `geo_config.py`: business-unit filter, then
internal-flag filter (the final `reset_index` only renumbers rows); an
exception from the internal-flag filter propagates. -/
def apply_team_filters (teams : List Team) (business_unit : Option String)
    (internal_flag : Option Int) : Except PyErr (List Team) :=
  filter_by_internal_flag (filter_by_business_unit teams business_unit) internal_flag

/-- The attribute filters chained in the reverse order: internal-flag filter
first (which may raise), then the business-unit filter on its result. -/
def apply_team_filters_rev (teams : List Team) (business_unit : Option String)
    (internal_flag : Option Int) : Except PyErr (List Team) :=
  match filter_by_internal_flag teams internal_flag with
  | .error e => .error e
  | .ok out => .ok (filter_by_business_unit out business_unit)

/-- The value of a GeoJSON feature's `contour` property: Mapbox may deliver the
minute label as a number or as a numeric string. -/
inductive ContourVal where
  | num (n : Int)
  | str (s : String)
  deriving DecidableEq, Repr

/-- Python `int(x)` applied to `props.get("contour")`: absent (`None`) raises a
TypeError, a numeric string is parsed, a non-numeric string raises ValueError. -/
def pyInt (v : Option ContourVal) : Except PyErr Int :=
  match v with
  | none => .error .typeError
  | some (.num n) => .ok n
  | some (.str s) =>
      match s.toInt? with
      | some n => .ok n
      | none => .error .valueError

/-- One feature of the isochrone GeoJSON response: a `contour` property and a
(multi-)polygon geometry. -/
structure Feature where
  contour : Option ContourVal
  geometry : List Polygon
  deriving DecidableEq, Repr

/-- The isochrone GeoJSON response: a list of features. -/
structure GeoJson where
  features : List Feature
  deriving DecidableEq, Repr

/-- A Python for-loop that builds a row list, with an exception from any
iteration aborting the whole loop. -/
def runLoop (f : α → Except PyErr β) : List α → Except PyErr (List β)
  | [] => .ok []
  | a :: l =>
      match f a with
      | .error e => .error e
      | .ok b =>
          match runLoop f l with
          | .error e => .error e
          | .ok bs => .ok (b :: bs)

/-- `isochrone_to_gdf` from `geo_config.py`: take the `features` list (empty
when the response is `None`); with zero features return an empty frame;
otherwise build one row per feature with `minutes = int(props.get("contour"))`
and its geometry, then `sort_values("minutes")`. -/
def isochrone_to_gdf (iso_geojson : Option GeoJson) : Except PyErr (List IsoRow) :=
  let features :=
    match iso_geojson with
    | some g => g.features
    | none => []
  if features.isEmpty then .ok []
  else
    match runLoop (fun f =>
        match pyInt f.contour with
        | .error e => .error e
        | .ok m => .ok (IsoRow.mk m f.geometry)) features with
    | .error e => .error e
    | .ok rows => .ok (rows.mergeSort (fun a b => decide (a.minutes ≤ b.minutes)))

/-- `haversine_km` from `routing_config.py`: great-circle distance in
kilometers, mean Earth radius 6371.0088 km, real-valued trigonometry in place
of the source's floating point. -/
noncomputable def radiansOf (x : ℝ) : ℝ := x * Real.pi / 180

/-- See `radiansOf`; follows the source formula line by line. -/
noncomputable def haversine_km (lat1 lon1 lat2 lon2 : ℝ) : ℝ :=
  let R : ℝ := 6371.0088
  let p1 := radiansOf lat1
  let p2 := radiansOf lat2
  let dphi := radiansOf (lat2 - lat1)
  let dlmb := radiansOf (lon2 - lon1)
  let a := Real.sin (dphi / 2) ^ 2 +
    Real.cos p1 * Real.cos p2 * Real.sin (dlmb / 2) ^ 2
  2 * R * Real.arcsin (Real.sqrt a)

/-- A candidate row after preselection: the team row together with its new
`air_km` column. -/
abbrev AnnTeam : Type := Team × ℝ

/-- Boolean comparison on the `air_km` column used to model
`sort_values("air_km")`. -/
noncomputable def airLe (a b : AnnTeam) : Bool := decide (a.2 ≤ b.2)

/-- `preselect_by_air_distance` from `routing_config.py`: an empty roster
returns an empty copy; otherwise copy the frame, add an `air_km` column of
haversine distances from the site, sort ascending by it (`sort_values`
produces a sorted permutation of the rows) and keep the first `top_n`. -/
noncomputable def preselect_by_air_distance (teams : List Team)
    (site_lon site_lat : ℚ) (top_n : Nat) : List AnnTeam :=
  if teams.isEmpty then []
  else
    let tmp : List AnnTeam :=
      teams.map (fun t => (t, haversine_km site_lat site_lon t.latitude t.longitude))
    (tmp.mergeSort airLe).take top_n

/-- The parsed body of one OSRM route: distance in meters, duration in
seconds. -/
structure OsrmLeg where
  distance : ℚ
  duration : ℚ
  deriving DecidableEq, Repr

/-- The dictionary returned by a routing call: `distance_km`, `duration_min`,
`co2_kg`, and (for monkeypatched implementations that provide one) a
`geometry` entry; `res.get("geometry")` of a dictionary without that key is
`none`. -/
structure RouteRes where
  distance_km : ℚ
  duration_min : ℚ
  co2_kg : ℚ
  geometry : Option (List Pt)
  deriving DecidableEq, Repr

/-- Emissions factor, the `CO2_PER_KM_KG` default "0.171" of `api_config.py`. -/
def CO2_PER_KM_KG : ℚ := 171 / 1000

/-- `osrm_route` from `api_config.py`, parametrized by the network call
(`requests.get` + `raise_for_status` + `r.json()["routes"][0]`): convert the
reported meters and seconds into `distance_km` and `duration_min` and derive
`co2_kg`; the returned dictionary carries no `geometry` key. -/
def osrm_route (net : ℚ → ℚ → ℚ → ℚ → Except PyErr OsrmLeg)
    (start_lon start_lat dest_lon dest_lat : ℚ) : Except PyErr RouteRes :=
  match net start_lon start_lat dest_lon dest_lat with
  | .error e => .error e
  | .ok route =>
      let distance_km := route.distance / 1000
      .ok { distance_km := distance_km, duration_min := route.duration / 60,
            co2_kg := distance_km * CO2_PER_KM_KG, geometry := none }

/-- A routing implementation as bound to the name `osrm_route` at the call
site in `route_rank_teams` (the module-level function, or a monkeypatched
replacement): its Python signature either does or does not accept the keyword
argument `include_geometry`, and its body maps the four coordinates (and the
flag, when accepted) to a result or an exception. -/
structure RoutingImpl where
  acceptsIncludeGeometry : Bool
  route : ℚ → ℚ → ℚ → ℚ → Bool → Except PyErr RouteRes

/-- Python keyword-argument binding for the call in `route_rank_teams`, which
always passes `include_geometry=...`: when the callee's signature does not
accept that keyword, the call raises TypeError before the body runs. -/
def invoke_osrm_route (impl : RoutingImpl) (start_lon start_lat dest_lon dest_lat : ℚ)
    (include_geometry : Bool) : Except PyErr RouteRes :=
  if impl.acceptsIncludeGeometry then
    impl.route start_lon start_lat dest_lon dest_lat include_geometry
  else .error .typeError

/-- The `RoutingImpl` realized by the source `osrm_route` of
`api_config.py`, whose signature has exactly the four coordinate parameters
and no `include_geometry`. -/
def osrm_route_impl (net : ℚ → ℚ → ℚ → ℚ → Except PyErr OsrmLeg) : RoutingImpl :=
  { acceptsIncludeGeometry := false,
    route := fun sl sa dl da _ => osrm_route net sl sa dl da }

/-- One output row of `route_rank_teams`. -/
structure RankedRow where
  intContractorID : Int
  contractor : String
  businessUnit : Option String
  postcode : String
  internalContractor : Option Int
  team_lon : ℚ
  team_lat : ℚ
  air_km : ℝ
  drive_km : ℚ
  drive_min : ℚ
  co2_kg : ℚ
  geometry : Option (List Pt)

/-- The row dictionary built for one candidate inside the loop of
`route_rank_teams`. -/
def mkRankedRow (r : AnnTeam) (res : RouteRes) : RankedRow :=
  { intContractorID := r.1.intContractorID, contractor := r.1.contractor,
    businessUnit := r.1.businessUnit, postcode := r.1.postcode,
    internalContractor := r.1.internalContractor,
    team_lon := r.1.longitude, team_lat := r.1.latitude, air_km := r.2,
    drive_km := res.distance_km, drive_min := res.duration_min,
    co2_kg := res.co2_kg, geometry := res.geometry }

/-- The lexicographic order on (`drive_min`, `drive_km`) that
`sort_values(["drive_min", "drive_km"])` sorts by. -/
def durDistLE (a b : RankedRow) : Prop :=
  a.drive_min < b.drive_min ∨ (a.drive_min = b.drive_min ∧ a.drive_km ≤ b.drive_km)

instance : DecidableRel durDistLE := by
  intro a b
  unfold durDistLE
  infer_instance

/-- Boolean form of `durDistLE` used as the sort comparison. -/
def durDistLeB (a b : RankedRow) : Bool := decide (durDistLE a b)

/-- `route_rank_teams` from `routing_config.py`, parametrized by the function
bound to the name `osrm_route`: preselect by air distance; an empty candidate
frame returns an empty result frame; otherwise loop over the candidates,
calling the routing function with keyword arguments including
`include_geometry` (an exception from any call aborts the loop and propagates),
and sort the collected rows by (`drive_min`, `drive_km`). -/
noncomputable def route_rank_teams (impl : RoutingImpl) (teams : List Team)
    (site_lon site_lat : ℚ) (top_n : Nat) (include_geometry : Bool) :
    Except PyErr (List RankedRow) :=
  let cand := preselect_by_air_distance teams site_lon site_lat top_n
  if cand.isEmpty then .ok []
  else
    match runLoop (fun r =>
        match invoke_osrm_route impl r.1.longitude r.1.latitude site_lon site_lat
            include_geometry with
        | .error e => .error e
        | .ok res => .ok (mkRankedRow r res)) cand with
    | .error e => .error e
    | .ok rows => .ok (rows.mergeSort durDistLeB)

/-!
State-passing renderings used to settle the frame claim: each function below
returns the final value of its input frame(s) alongside its result.  The
pandas operations the sources use — boolean-mask selection, `sort_values`,
`head`, `reset_index`, `unary_union`, `.copy()` — all return new frames and
leave their operand untouched; the single in-place operation in the pipeline,
the column assignment `tmp["air_km"] = ...`, is applied to `tmp`, which is
bound to a fresh `.copy()` of the input, never to the input itself.
-/

/-- `filter_teams_by_minutes`, with the final values of both inputs returned:
the body only selects rows and unions geometry, so neither frame changes. -/
def filter_teams_by_minutes_state (teams : List Team) (iso : List IsoRow)
    (minutes : Int) : (List Team × List IsoRow) × List Team :=
  let sel := iso.filter (fun r => r.minutes == minutes)
  if sel.isEmpty then ((teams, iso), [])
  else
    let parts := (sel.map IsoRow.geom).flatten
    ((teams, iso), teams.filter (fun t => withinUnion parts t.point))

/-- `filter_by_business_unit`, with the final value of the input returned:
row selection allocates a new frame. -/
def filter_by_business_unit_state (teams : List Team) (business_unit : Option String) :
    List Team × List Team :=
  (teams, filter_by_business_unit teams business_unit)

/-- `filter_by_internal_flag`, with the final value of the input returned:
column conversion (`astype`) and row selection allocate new values, so the
input is unchanged whether the call returns or raises. -/
def filter_by_internal_flag_state (teams : List Team) (internal_flag : Option Int) :
    List Team × Except PyErr (List Team) :=
  (teams, filter_by_internal_flag teams internal_flag)

/-- `apply_team_filters`, with the final value of the input returned: it only
chains the two non-mutating filters and renumbers the result's index, so the
input is unchanged whether the call returns or raises. -/
def apply_team_filters_state (teams : List Team) (business_unit : Option String)
    (internal_flag : Option Int) : List Team × Except PyErr (List Team) :=
  let out := filter_by_business_unit teams business_unit
  (teams, filter_by_internal_flag out internal_flag)

/-- `preselect_by_air_distance`, with the final value of the input returned:
`tmp` is bound to `teams_df.copy()`, a fresh frame, and the in-place column
assignment `tmp["air_km"] = [...]` therefore updates the copy only. -/
noncomputable def preselect_by_air_distance_state (teams : List Team)
    (site_lon site_lat : ℚ) (top_n : Nat) : List Team × List AnnTeam :=
  if teams.isEmpty then (teams, [])
  else
    let tmp : List Team := teams
    let tmp : List AnnTeam :=
      tmp.map (fun t => (t, haversine_km site_lat site_lon t.latitude t.longitude))
    (teams, (tmp.mergeSort airLe).take top_n)

/-!
Concrete inputs used for witnesses and counterexamples.
-/

/-- A square band polygon with unit side, vertices listed counterclockwise. -/
def unitSquare : Polygon := [(0, 0), (1, 0), (1, 1), (0, 1)]

/-- A one-band isochrone frame: the 60-minute band is the unit square. -/
def demoIso : List IsoRow := [⟨60, [unitSquare]⟩]

/-- A team at (1/2, 1/2): strictly inside the unit square. -/
def teamInside : Team :=
  { intContractorID := 1, contractor := "A", businessUnit := some "Ops",
    postcode := "P1", internalContractor := some 1, latitude := 1/2, longitude := 1/2 }

/-- A team at (0, 1/2): on the boundary of the unit square. -/
def teamEdge : Team :=
  { intContractorID := 2, contractor := "B", businessUnit := some "ops",
    postcode := "P2", internalContractor := some 0, latitude := 1/2, longitude := 0 }

/-- A team at (2, 2): strictly outside the unit square. -/
def teamOutside : Team :=
  { intContractorID := 3, contractor := "C", businessUnit := some "(Any)",
    postcode := "P3", internalContractor := some 1, latitude := 2, longitude := 2 }

/-- A roster whose business units are "Ops", "ops" and the literal string
"(Any)". -/
def demoRoster : List Team := [teamInside, teamEdge, teamOutside]

/-- A roster whose business units are "Ops" and "ops" only. -/
def demoRoster2 : List Team := [teamInside, teamEdge]

/-- ASCII lowercase of one character. -/
def lowerChar (c : Char) : Char :=
  if 65 ≤ c.toNat && c.toNat ≤ 90 then Char.ofNat (c.toNat + 32) else c

/-- ASCII lowercase of a string. -/
def lowerStr (s : String) : String := ⟨s.data.map lowerChar⟩

/-- Formalization of the spec's words for the business-unit option list: a
case-normalized, deduplicated list has no two entries that agree up to
letter case. -/
def caseNormalizedList (l : List String) : Prop :=
  l.Pairwise (fun a b => lowerStr a ≠ lowerStr b)

/-- A team at integer coordinates (0, 0), for the routing counterexample. -/
def teamA2 : Team :=
  { intContractorID := 10, contractor := "A2", businessUnit := some "X",
    postcode := "P4", internalContractor := some 1, latitude := 0, longitude := 0 }

/-- A team at integer coordinates (1, 1), for the routing counterexample. -/
def teamB2 : Team :=
  { intContractorID := 11, contractor := "B2", businessUnit := some "X",
    postcode := "P5", internalContractor := some 0, latitude := 1, longitude := 1 }

/-- A team whose `InternalContractor` is missing (a NULL in the roster) and
whose business unit is "X". -/
def teamNullFlag : Team :=
  { intContractorID := 12, contractor := "N", businessUnit := some "X",
    postcode := "P6", internalContractor := none, latitude := 0, longitude := 0 }

/-- A fixed routing result used by stub implementations. -/
def resDemo : RouteRes :=
  { distance_km := 10, duration_min := 12, co2_kg := 171/100, geometry := none }

/-- A monkeypatch-style routing implementation that accepts the
`include_geometry` keyword, succeeds everywhere except for a start longitude
of 1 (team `teamB2`), where the route computation fails. -/
def implFailSecond : RoutingImpl :=
  { acceptsIncludeGeometry := true,
    route := fun sl _ _ _ _ => if sl == 1 then .error .routingError else .ok resDemo }

/-- A routing implementation that accepts `include_geometry` and always
succeeds. -/
def implAlwaysOk : RoutingImpl :=
  { acceptsIncludeGeometry := true, route := fun _ _ _ _ _ => .ok resDemo }

/-- A network stub for `osrm_route`: every route is 12345 meters, 900
seconds. -/
def netDemo : ℚ → ℚ → ℚ → ℚ → Except PyErr OsrmLeg := fun _ _ _ _ => .ok ⟨12345, 900⟩

/-- A two-feature isochrone response with numeric contours 60 and 15, listed
out of order. -/
def demoGeoJson : GeoJson :=
  ⟨[⟨some (.num 60), [unitSquare]⟩, ⟨some (.num 15), [unitSquare]⟩]⟩

/-!
Helper lemmas.
-/

theorem strLeB_total : ∀ as bs : List Char, strLeB as bs = true ∨ strLeB bs as = true
  | [], _ => Or.inl rfl
  | _ :: _, [] => Or.inr rfl
  | a :: as, b :: bs => by
      simp only [strLeB]
      rcases Nat.lt_trichotomy a.toNat b.toNat with h | h | h
      · left
        rw [if_pos h]
      · rcases strLeB_total as bs with ih | ih
        · left
          rw [if_neg (by omega), if_neg (by omega)]
          exact ih
        · right
          rw [if_neg (by omega), if_neg (by omega)]
          exact ih
      · right
        rw [if_pos h]

theorem strLeB_trans : ∀ as bs cs : List Char,
    strLeB as bs = true → strLeB bs cs = true → strLeB as cs = true
  | [], _, _, _, _ => rfl
  | _ :: _, [], _, h, _ => by simp [strLeB] at h
  | _ :: _, _ :: _, [], _, h => by simp [strLeB] at h
  | a :: as, b :: bs, c :: cs, h1, h2 => by
      simp only [strLeB] at h1 h2 ⊢
      split at h1
      · -- a < b
        split at h2
        · rw [if_pos (by omega)]
        · split at h2
          · exact Bool.noConfusion h2
          · rw [if_pos (by omega)]
      · split at h1
        · exact Bool.noConfusion h1
        · -- neither a < b nor b < a, so a and b have equal code points
          split at h2
          · rw [if_pos (by omega)]
          · split at h2
            · exact Bool.noConfusion h2
            · rw [if_neg (by omega), if_neg (by omega)]
              exact strLeB_trans as bs cs h1 h2

theorem pyStrLe_total (a b : String) : pyStrLe a b = true ∨ pyStrLe b a = true :=
  strLeB_total a.data b.data

theorem pyStrLe_trans (a b c : String) :
    pyStrLe a b = true → pyStrLe b c = true → pyStrLe a c = true :=
  strLeB_trans a.data b.data c.data

/-- `mergeSort` with a total, transitive boolean comparison yields a list
pairwise related by any proposition the comparison implies. -/
theorem pairwise_mergeSort_of {α : Type _} (le : α → α → Bool) (R : α → α → Prop)
    (hR : ∀ a b, le a b = true → R a b)
    (htrans : ∀ a b c : α, le a b = true → le b c = true → le a c = true)
    (htotal : ∀ a b : α, le a b = true ∨ le b a = true) (l : List α) :
    (l.mergeSort le).Pairwise R := by
  have h : (l.mergeSort le).Pairwise (fun a b => le a b = true) :=
    @List.sorted_mergeSort _ le htrans
      (fun a b => (Bool.or_eq_true _ _).mpr (htotal a b)) l
  exact h.imp (fun hab => hR _ _ hab)

theorem durDistLE_trans (a b c : RankedRow) :
    durDistLE a b → durDistLE b c → durDistLE a c := by
  rintro (h1 | ⟨h1, h1d⟩) (h2 | ⟨h2, h2d⟩)
  · exact Or.inl (h1.trans h2)
  · exact Or.inl (lt_of_lt_of_le h1 (le_of_eq h2))
  · exact Or.inl (lt_of_le_of_lt (le_of_eq h1) h2)
  · exact Or.inr ⟨h1.trans h2, h1d.trans h2d⟩

theorem durDistLE_total (a b : RankedRow) : durDistLE a b ∨ durDistLE b a := by
  rcases lt_trichotomy a.drive_min b.drive_min with h | h | h
  · exact Or.inl (Or.inl h)
  · rcases le_total a.drive_km b.drive_km with hd | hd
    · exact Or.inl (Or.inr ⟨h, hd⟩)
    · exact Or.inr (Or.inr ⟨h.symm, hd⟩)
  · exact Or.inr (Or.inl h)

theorem runLoop_ok_length (f : α → Except PyErr β) :
    ∀ (l : List α) (bs : List β), runLoop f l = .ok bs → bs.length = l.length
  | [], bs, h => by
      simp only [runLoop] at h
      cases h
      rfl
  | a :: l, bs, h => by
      simp only [runLoop] at h
      cases hfa : f a with
      | error e => rw [hfa] at h; cases h
      | ok b =>
          rw [hfa] at h
          cases hrl : runLoop f l with
          | error e => rw [hrl] at h; cases h
          | ok bs0 =>
              rw [hrl] at h
              cases h
              simp [runLoop_ok_length f l bs0 hrl]

theorem runLoop_ok_of_forall (f : α → Except PyErr β) :
    ∀ l : List α, (∀ x ∈ l, ∃ b, f x = .ok b) →
      ∃ bs, runLoop f l = .ok bs
  | [], _ => ⟨[], rfl⟩
  | a :: l, h => by
      obtain ⟨b, hb⟩ := h a (List.mem_cons_self a l)
      obtain ⟨bs, hbs⟩ := runLoop_ok_of_forall f l (fun x hx => h x (List.mem_cons_of_mem a hx))
      exact ⟨b :: bs, by simp [runLoop, hb, hbs]⟩

theorem runLoop_error_of_mem (f : α → Except PyErr β) (e : PyErr) :
    ∀ l : List α, (∀ x ∈ l, (∃ b, f x = .ok b) ∨ f x = .error e) →
      (∃ x ∈ l, f x = .error e) → runLoop f l = .error e
  | [], _, hex => by simp at hex
  | a :: l, hall, hex => by
      rcases hall a (List.mem_cons_self a l) with ⟨b, hb⟩ | hb
      · have hex' : ∃ x ∈ l, f x = .error e := by
          obtain ⟨x, hx, hfx⟩ := hex
          rcases List.mem_cons.mp hx with rfl | hx'
          · rw [hfx] at hb; cases hb
          · exact ⟨x, hx', hfx⟩
        have ih := runLoop_error_of_mem f e l
          (fun x hx => hall x (List.mem_cons_of_mem a hx)) hex'
        simp [runLoop, hb, ih]
      · simp [runLoop, hb]

/-- `filter_teams_by_minutes` equals a plain filter against the union of the
polygon parts selected by the minutes value (both when a band exists and when
none does). -/
theorem filter_teams_by_minutes_eq_filter (teams : List Team) (iso : List IsoRow) (m : Int) :
    filter_teams_by_minutes teams iso m
      = teams.filter (fun t => withinUnion (selectedParts iso m) t.point) := by
  unfold filter_teams_by_minutes selectedParts
  by_cases h : (iso.filter (fun r => r.minutes == m)).isEmpty
  · rw [if_pos h]
    have hnil : iso.filter (fun r => r.minutes == m) = [] := List.isEmpty_iff.mp h
    simp [hnil, withinUnion]
  · rw [if_neg h]

theorem length_preselect (teams : List Team) (slon slat : ℚ) (tn : Nat) :
    (preselect_by_air_distance teams slon slat tn).length = min tn teams.length := by
  unfold preselect_by_air_distance
  by_cases h : teams.isEmpty
  · rw [if_pos h, List.isEmpty_iff.mp h]
    simp
  · rw [if_neg h]
    simp

theorem mem_preselect (teams : List Team) (slon slat : ℚ) (tn : Nat) (x : AnnTeam) :
    x ∈ preselect_by_air_distance teams slon slat tn → x.1 ∈ teams := by
  unfold preselect_by_air_distance
  by_cases h : teams.isEmpty
  · rw [if_pos h]
    intro hx
    cases hx
  · rw [if_neg h]
    intro hx
    have h1 := (List.take_sublist tn _).subset hx
    have h2 := List.mem_mergeSort.mp h1
    obtain ⟨t, ht, rfl⟩ := List.mem_map.mp h2
    exact ht

/-- If the routing call errs with `e` on some preselected candidate and every
call either succeeds or errs with `e`, then `route_rank_teams` propagates
`e`. -/
theorem route_rank_teams_error_cases (impl : RoutingImpl) (teams : List Team)
    (slon slat : ℚ) (tn : Nat) (ig : Bool) (e : PyErr)
    (hall : ∀ t ∈ teams,
      (∃ b, invoke_osrm_route impl t.longitude t.latitude slon slat ig = .ok b) ∨
        invoke_osrm_route impl t.longitude t.latitude slon slat ig = .error e)
    (hex : ∃ x ∈ preselect_by_air_distance teams slon slat tn,
        invoke_osrm_route impl x.1.longitude x.1.latitude slon slat ig = .error e) :
    route_rank_teams impl teams slon slat tn ig = .error e := by
  have hne : ¬ (preselect_by_air_distance teams slon slat tn).isEmpty = true := by
    intro hcontra
    obtain ⟨x, hx, _⟩ := hex
    rw [List.isEmpty_iff.mp hcontra] at hx
    cases hx
  unfold route_rank_teams
  rw [if_neg hne]
  have hrl := runLoop_error_of_mem
    (fun r : AnnTeam =>
      match invoke_osrm_route impl r.1.longitude r.1.latitude slon slat ig with
      | .error e0 => .error e0
      | .ok res => .ok (mkRankedRow r res)) e
    (preselect_by_air_distance teams slon slat tn)
    (by
      intro x hx
      rcases hall x.1 (mem_preselect teams slon slat tn x hx) with ⟨b, hb⟩ | hb
      · exact Or.inl ⟨mkRankedRow x b, by simp only [hb]⟩
      · exact Or.inr (by simp only [hb]))
    (by
      obtain ⟨x, hx, hfx⟩ := hex
      exact ⟨x, hx, by simp only [hfx]⟩)
  rw [hrl]

/-!
Claim theorems.
-/

theorem mem_filter_by_business_unit {teams : List Team} {bu : Option String} {t : Team}
    (h : t ∈ filter_by_business_unit teams bu) : t ∈ teams := by
  unfold filter_by_business_unit at h
  split at h
  · exact h
  · split at h
    · exact h
    · exact (List.mem_filter.mp h).1

/-- When every `InternalContractor` value is present, the active internal-flag
filter does not raise and reduces to a plain row filter. -/
theorem filter_by_internal_flag_ok (teams : List Team) (f : Int)
    (hf : (f == 0 || f == 1) = true)
    (h : ∀ t ∈ teams, t.internalContractor.isSome) :
    filter_by_internal_flag teams (some f)
      = Except.ok (teams.filter (fun t => t.internalContractor == some f)) := by
  simp only [filter_by_internal_flag]
  rw [if_pos hf, if_pos]
  exact List.all_eq_true.mpr (fun t ht => by simpa using h t ht)

/-- C7 counterexample: on a roster with one team whose `InternalContractor`
is NULL and whose business unit does not match the selection, business-unit
filter first then internal-flag filter succeeds with the empty set, while
internal-flag filter first raises (the column-wide `astype(int)` hits the
missing value before the business-unit filter can drop the row): the two
filter orders disagree, refuting unconditional commutation. -/
theorem C7_null_flag_counterexample :
    apply_team_filters [teamNullFlag] (some "Y") (some 1) = .ok [] ∧
      apply_team_filters_rev [teamNullFlag] (some "Y") (some 1)
        = .error .valueError :=
  ⟨rfl, rfl⟩

/-- C7 amended: on every roster whose `InternalContractor` values are all
present, the two attribute filters commute: business-unit then internal-flag
and internal-flag then business-unit both succeed and return the same team
set.  (With a missing flag value the active internal-flag filter raises, so
the two orders can disagree.) -/
theorem C7_filters_commute_amended :
    ∀ (teams : List Team) (bu : Option String) (fl : Option Int),
      (∀ t ∈ teams, t.internalContractor.isSome) →
        ∃ out, apply_team_filters teams bu fl = .ok out ∧
          apply_team_filters_rev teams bu fl = .ok out := by
  intro teams bu fl h
  cases fl with
  | none => exact ⟨filter_by_business_unit teams bu, rfl, rfl⟩
  | some f =>
      by_cases hf : (f == 0 || f == 1) = true
      · have hsub : ∀ t ∈ filter_by_business_unit teams bu, t.internalContractor.isSome :=
          fun t ht => h t (mem_filter_by_business_unit ht)
        have h1 := filter_by_internal_flag_ok (filter_by_business_unit teams bu) f hf hsub
        have h2 := filter_by_internal_flag_ok teams f hf h
        refine ⟨(filter_by_business_unit teams bu).filter
            (fun t => t.internalContractor == some f), ?_, ?_⟩
        · unfold apply_team_filters
          rw [h1]
        · unfold apply_team_filters_rev
          simp only [h2]
          congr 1
          cases bu with
          | none => rfl
          | some b =>
              simp only [filter_by_business_unit]
              by_cases hb : (b == "" || b == "(Any)") = true
              · rw [if_pos hb, if_pos hb]
              · rw [if_neg hb, if_neg hb, List.filter_filter, List.filter_filter]
                congr 1
                funext t
                rw [Bool.and_comm]
      · have e1 : filter_by_internal_flag (filter_by_business_unit teams bu) (some f)
            = .ok (filter_by_business_unit teams bu) := by
          simp only [filter_by_internal_flag]
          rw [if_neg hf]
        have e2 : filter_by_internal_flag teams (some f) = .ok teams := by
          simp only [filter_by_internal_flag]
          rw [if_neg hf]
        refine ⟨filter_by_business_unit teams bu, e1, ?_⟩
        unfold apply_team_filters_rev
        simp only [e2]

/-- Witness for amended C7 at a concrete input: on a two-team roster with
both flags present, the two filter orders return the same successful set. -/
theorem C7_filters_commute_witness :
    (∀ t ∈ demoRoster2, t.internalContractor.isSome) ∧
      ∃ out, apply_team_filters demoRoster2 (some "Ops") (some 1) = .ok out ∧
        apply_team_filters_rev demoRoster2 (some "Ops") (some 1) = .ok out :=
  ⟨by decide, C7_filters_commute_amended demoRoster2 (some "Ops") (some 1) (by decide)⟩

/-- C9: requesting a minutes value for which no band row exists returns an
empty team set (the function is total, so no error is possible). -/
theorem C9_missing_band_empty :
    ∀ (teams : List Team) (iso : List IsoRow) (m : Int),
      (∀ r ∈ iso, r.minutes ≠ m) → filter_teams_by_minutes teams iso m = [] := by
  intro teams iso m h
  have hsel : iso.filter (fun r => r.minutes == m) = [] :=
    List.filter_eq_nil_iff.mpr (fun r hr => by simpa using h r hr)
  unfold filter_teams_by_minutes
  simp [hsel]

/-- Witness for C9 at a concrete input: the demo band set has no 45-minute
band, and filtering for 45 minutes returns the empty set. -/
theorem C9_missing_band_empty_witness :
    (∀ r ∈ demoIso, r.minutes ≠ 45) ∧
      filter_teams_by_minutes [teamInside] demoIso 45 = [] :=
  ⟨by decide, C9_missing_band_empty [teamInside] demoIso 45 (by decide)⟩

unseal Rat.add Rat.mul Rat.sub Rat.inv in
/-- C1 counterexample: a team whose point lies on the boundary of the
60-minute band polygon is EXCLUDED by `filter_teams_by_minutes`, refuting the
claimed inclusive boundary rule. -/
theorem C1_boundary_counterexample :
    onBoundary teamEdge.point unitSquare = true ∧
      filter_teams_by_minutes [teamEdge] demoIso 60 = [] := by
  constructor
  · decide
  · decide

/-- C1 amended: `containedWithin` keeps exactly the teams whose point is
STRICTLY inside some constituent polygon part carrying the requested minutes
value (containment is tested against the union of all parts): a point
strictly inside any part is included, and a point not strictly inside any
part — on the boundary or strictly outside all parts — is excluded. -/
theorem C1_containment_amended :
    ∀ (teams : List Team) (iso : List IsoRow) (m : Int),
      (filter_teams_by_minutes teams iso m
          = teams.filter (fun t => withinUnion (selectedParts iso m) t.point)) ∧
        (∀ t ∈ teams,
          (∃ poly ∈ selectedParts iso m, pointInPolygon t.point poly = true) →
            t ∈ filter_teams_by_minutes teams iso m) ∧
        (∀ t : Team, withinUnion (selectedParts iso m) t.point = false →
          t ∉ filter_teams_by_minutes teams iso m) := by
  intro teams iso m
  refine ⟨filter_teams_by_minutes_eq_filter teams iso m, ?_, ?_⟩
  · intro t ht hin
    rw [filter_teams_by_minutes_eq_filter]
    refine List.mem_filter.mpr ⟨ht, ?_⟩
    obtain ⟨poly, hpoly, hp⟩ := hin
    exact List.any_eq_true.mpr ⟨poly, hpoly, hp⟩
  · intro t hout hmem
    rw [filter_teams_by_minutes_eq_filter] at hmem
    have := (List.mem_filter.mp hmem).2
    rw [hout] at this
    exact Bool.noConfusion this

unseal Rat.add Rat.mul Rat.sub Rat.inv in
/-- Witness for C1 at a concrete input: the team strictly inside the unit
square is kept by the 60-minute filter. -/
theorem C1_containment_witness :
    teamInside ∈ filter_teams_by_minutes [teamInside, teamOutside] demoIso 60 :=
  (C1_containment_amended [teamInside, teamOutside] demoIso 60).2.1 teamInside
    (by decide) ⟨unitSquare, by decide, by decide⟩

unseal List.merge List.mergeSort in
/-- C4 counterexample: with roster business units "Ops", "ops" and the
literal string "(Any)", the option list is
["(Any)", "(Any)", "Ops", "ops"]: it contains a duplicate entry (the
sentinel collides with a roster value) and two entries that agree up to
letter case (no case normalization is performed), refuting the claim. -/
theorem C4_business_units_counterexample :
    list_business_units demoRoster = ["(Any)", "(Any)", "Ops", "ops"] ∧
      ¬ (list_business_units demoRoster).Nodup ∧
      ¬ caseNormalizedList (list_business_units demoRoster) := by
  refine ⟨by decide, by decide, ?_⟩
  simp only [caseNormalizedList]
  decide

/-- C4 amended: the business-unit option list always has the "(Any)" sentinel
first; its remainder is the distinct business-unit values deduplicated by
EXACT string equality (no case normalization), sorted ascending by Python
string order, with no duplicates; the full list has no duplicates whenever no
roster value is itself the literal string "(Any)". -/
theorem C4_business_units_amended :
    ∀ df : List Team,
      (list_business_units df).head? = some "(Any)" ∧
        ((list_business_units df).tail).Pairwise (fun a b => pyStrLe a b = true) ∧
        ((list_business_units df).tail).Nodup ∧
        ((∀ t ∈ df, t.businessUnit ≠ some "(Any)") →
          (list_business_units df).Nodup) := by
  intro df
  have hperm : List.Perm (((df.filterMap Team.businessUnit).dedup).mergeSort pyStrLe)
      ((df.filterMap Team.businessUnit).dedup) := List.mergeSort_perm _ _
  have hnd : (((df.filterMap Team.businessUnit).dedup).mergeSort pyStrLe).Nodup :=
    hperm.nodup_iff.mpr (List.nodup_dedup _)
  refine ⟨rfl, ?_, ?_, ?_⟩
  · exact pairwise_mergeSort_of pyStrLe _ (fun a b h => h) pyStrLe_trans pyStrLe_total _
  · exact hnd
  · intro h
    refine List.nodup_cons.mpr ⟨?_, hnd⟩
    intro hmem
    have h1 : "(Any)" ∈ (df.filterMap Team.businessUnit).dedup :=
      (List.Perm.mem_iff hperm).mp hmem
    have h2 : "(Any)" ∈ df.filterMap Team.businessUnit := List.mem_dedup.mp h1
    obtain ⟨t, ht, hbu⟩ := List.mem_filterMap.mp h2
    exact h t ht hbu

unseal List.merge List.mergeSort in
/-- Witness for C4 at a concrete input: a roster without the literal "(Any)"
value yields a duplicate-free option list. -/
theorem C4_business_units_witness :
    (∀ t ∈ demoRoster2, t.businessUnit ≠ some "(Any)") ∧
      (list_business_units demoRoster2).Nodup :=
  ⟨by decide, (C4_business_units_amended demoRoster2).2.2.2 (by decide)⟩

/-- C8: `isochrone_to_gdf` returns an empty sequence (not an error) for a
response with zero features (and for a `None` response), and for every
response whose features all carry a numeric contour the returned band
sequence is sorted ascending by minutes. -/
theorem C8_isochrone_bands :
    (isochrone_to_gdf none = .ok []) ∧
      (∀ g : GeoJson, g.features = [] → isochrone_to_gdf (some g) = .ok []) ∧
      (∀ g : GeoJson,
        (∀ f ∈ g.features, ∃ n : Int, f.contour = some (.num n)) →
          ∃ rows : List IsoRow, isochrone_to_gdf (some g) = .ok rows ∧
            rows.Pairwise (fun a b => a.minutes ≤ b.minutes)) := by
  refine ⟨rfl, ?_, ?_⟩
  · intro g hg
    unfold isochrone_to_gdf
    simp [hg]
  · intro g h
    unfold isochrone_to_gdf
    by_cases hf : g.features.isEmpty
    · rw [if_pos hf]
      exact ⟨[], rfl, List.Pairwise.nil⟩
    · rw [if_neg hf]
      obtain ⟨rows0, hr⟩ := runLoop_ok_of_forall
        (fun f =>
          match pyInt f.contour with
          | .error e => .error e
          | .ok m => .ok (IsoRow.mk m f.geometry)) g.features
        (by
          intro f hf2
          obtain ⟨n, hn⟩ := h f hf2
          exact ⟨IsoRow.mk n f.geometry, by simp only [hn, pyInt]⟩)
      rw [hr]
      refine ⟨rows0.mergeSort (fun a b => decide (a.minutes ≤ b.minutes)), rfl, ?_⟩
      exact pairwise_mergeSort_of (fun a b : IsoRow => decide (a.minutes ≤ b.minutes))
        (fun a b : IsoRow => a.minutes ≤ b.minutes) (fun a b hab => of_decide_eq_true hab)
        (fun a b c h1 h2 =>
          decide_eq_true (le_trans (of_decide_eq_true h1) (of_decide_eq_true h2)))
        (fun a b => by
          rcases le_total a.minutes b.minutes with hh | hh
          exacts [Or.inl (decide_eq_true hh), Or.inr (decide_eq_true hh)]) rows0

/-- Witness for C8 at a concrete input: a two-feature response with numeric
contours parses to a band sequence sorted ascending by minutes. -/
theorem C8_isochrone_bands_witness :
    ∃ rows : List IsoRow, isochrone_to_gdf (some demoGeoJson) = .ok rows ∧
      rows.Pairwise (fun a b => a.minutes ≤ b.minutes) :=
  (C8_isochrone_bands).2.2 demoGeoJson (by
    intro f hf
    rcases List.mem_cons.mp hf with rfl | hf2
    · exact ⟨60, rfl⟩
    · rcases List.mem_cons.mp hf2 with rfl | hf3
      · exact ⟨15, rfl⟩
      · cases hf3)

/-- C6: `preselect_by_air_distance` returns at most `top_n` rows, sorted
ascending by air distance; together with some remainder it is a permutation
of the whole annotated roster in which every kept row's distance is at most
every discarded row's distance (so the kept rows are the `top_n` closest);
and an empty roster yields an empty sequence. -/
theorem C6_preselect_spec :
    (∀ (teams : List Team) (slon slat : ℚ) (tn : Nat),
        (preselect_by_air_distance teams slon slat tn).length ≤ tn) ∧
      (∀ (teams : List Team) (slon slat : ℚ) (tn : Nat),
        (preselect_by_air_distance teams slon slat tn).Pairwise
          (fun a b : AnnTeam => a.2 ≤ b.2)) ∧
      (∀ (teams : List Team) (slon slat : ℚ) (tn : Nat),
        ∃ rest : List AnnTeam,
          List.Perm (preselect_by_air_distance teams slon slat tn ++ rest)
            (teams.map (fun t => (t, haversine_km slat slon t.latitude t.longitude))) ∧
          ∀ x ∈ preselect_by_air_distance teams slon slat tn,
            ∀ y ∈ rest, x.2 ≤ y.2) ∧
      (∀ (slon slat : ℚ) (tn : Nat), preselect_by_air_distance [] slon slat tn = []) := by
  have hpair : ∀ (teams : List Team) (slon slat : ℚ),
      ((teams.map (fun t => (t, haversine_km slat slon t.latitude t.longitude))).mergeSort
          airLe).Pairwise (fun a b : AnnTeam => a.2 ≤ b.2) := by
    intro teams slon slat
    exact pairwise_mergeSort_of airLe _ (fun a b hab => of_decide_eq_true hab)
      (fun a b c h1 h2 =>
        decide_eq_true (le_trans (of_decide_eq_true h1) (of_decide_eq_true h2)))
      (fun a b => by
        rcases le_total a.2 b.2 with hh | hh
        exacts [Or.inl (decide_eq_true hh), Or.inr (decide_eq_true hh)]) _
  refine ⟨?_, ?_, ?_, ?_⟩
  · intro teams slon slat tn
    rw [length_preselect]
    exact Nat.min_le_left _ _
  · intro teams slon slat tn
    unfold preselect_by_air_distance
    by_cases h : teams.isEmpty
    · rw [if_pos h]
      exact List.Pairwise.nil
    · rw [if_neg h]
      exact (hpair teams slon slat).sublist (List.take_sublist _ _)
  · intro teams slon slat tn
    by_cases h : teams.isEmpty
    · refine ⟨[], ?_, ?_⟩
      · rw [List.isEmpty_iff.mp h]
        simp [preselect_by_air_distance]
      · intro x hx
        rw [List.isEmpty_iff.mp h] at hx
        simp [preselect_by_air_distance] at hx
    · refine ⟨((teams.map
          (fun t => (t, haversine_km slat slon t.latitude t.longitude))).mergeSort
            airLe).drop tn, ?_, ?_⟩
      · unfold preselect_by_air_distance
        rw [if_neg h, List.take_append_drop]
        exact List.mergeSort_perm _ _
      · intro x hx y hy
        unfold preselect_by_air_distance at hx
        rw [if_neg h] at hx
        exact (hpair teams slon slat).rel_of_mem_take_of_mem_drop hx hy
  · intro slon slat tn
    rfl

/-- Witness for C6 at a concrete input: an empty roster preselects to the
empty sequence, of length at most the limit. -/
theorem C6_preselect_spec_witness :
    preselect_by_air_distance [] 0 0 20 = [] ∧
      (preselect_by_air_distance [] 0 0 20).length ≤ 20 :=
  ⟨(C6_preselect_spec).2.2.2 0 0 20, (C6_preselect_spec).1 [] 0 0 20⟩

/-- C5: whenever `route_rank_teams` returns a result (all routing calls
succeeded), the rows are sorted ascending by drive duration with ties broken
by ascending drive distance. -/
theorem C5_rank_sorted :
    ∀ (impl : RoutingImpl) (teams : List Team) (slon slat : ℚ) (tn : Nat) (ig : Bool)
      (rows : List RankedRow),
      route_rank_teams impl teams slon slat tn ig = .ok rows →
        rows.Pairwise durDistLE := by
  intro impl teams slon slat tn ig rows h
  unfold route_rank_teams at h
  by_cases hc : (preselect_by_air_distance teams slon slat tn).isEmpty
  · rw [if_pos hc] at h
    cases h
    exact List.Pairwise.nil
  · rw [if_neg hc] at h
    split at h
    · exact Except.noConfusion h
    · cases h
      exact pairwise_mergeSort_of durDistLeB durDistLE
        (fun a b hab => of_decide_eq_true hab)
        (fun a b c h1 h2 =>
          decide_eq_true
            (durDistLE_trans a b c (of_decide_eq_true h1) (of_decide_eq_true h2)))
        (fun a b => by
          rcases durDistLE_total a b with hh | hh
          exacts [Or.inl (decide_eq_true hh), Or.inr (decide_eq_true hh)]) _

/-- Witness for C5 at a concrete input: a routing implementation that accepts
the keyword and always succeeds, on an empty roster, returns a result, and
that result is sorted. -/
theorem C5_rank_sorted_witness :
    route_rank_teams implAlwaysOk [] 0 0 20 true = .ok [] ∧
      (([] : List RankedRow)).Pairwise durDistLE :=
  ⟨rfl, C5_rank_sorted implAlwaysOk [] 0 0 20 true [] rfl⟩

/-- C3: `route_rank_teams` always passes the keyword argument
`include_geometry` to `osrm_route`, whose signature does not accept it, so
with the module's own `osrm_route` every non-empty roster (at the default
`top_n = 20`) raises TypeError before any routed result is produced, and a
result is returned only when the preselected candidate set is empty (and
that result is itself empty). -/
theorem C3_include_geometry_type_error :
    (∀ (net : ℚ → ℚ → ℚ → ℚ → Except PyErr OsrmLeg) (teams : List Team) (slon slat : ℚ),
        teams ≠ [] →
          route_rank_teams (osrm_route_impl net) teams slon slat 20 true
            = .error .typeError) ∧
      (∀ (net : ℚ → ℚ → ℚ → ℚ → Except PyErr OsrmLeg) (teams : List Team)
          (slon slat : ℚ) (tn : Nat) (ig : Bool) (rows : List RankedRow),
        route_rank_teams (osrm_route_impl net) teams slon slat tn ig = .ok rows →
          preselect_by_air_distance teams slon slat tn = [] ∧ rows = []) := by
  constructor
  · intro net teams slon slat hne
    apply route_rank_teams_error_cases
    · intro t _
      exact Or.inr rfl
    · have hlen : 0 < (preselect_by_air_distance teams slon slat 20).length := by
        rw [length_preselect]
        have hp : 0 < teams.length := List.length_pos.mpr hne
        omega
      obtain ⟨x, hx⟩ := List.exists_mem_of_length_pos hlen
      exact ⟨x, hx, rfl⟩
  · intro net teams slon slat tn ig rows h
    unfold route_rank_teams at h
    by_cases hc : (preselect_by_air_distance teams slon slat tn).isEmpty
    · rw [if_pos hc] at h
      cases h
      exact ⟨List.isEmpty_iff.mp hc, rfl⟩
    · exfalso
      rw [if_neg hc] at h
      have hne2 : preselect_by_air_distance teams slon slat tn ≠ [] := by
        intro hnil
        rw [hnil] at hc
        exact hc rfl
      obtain ⟨a, l, hal⟩ := List.exists_cons_of_ne_nil hne2
      rw [hal] at h
      simp [runLoop, invoke_osrm_route, osrm_route_impl] at h

/-- Witness for C3 at a concrete input: with the module's `osrm_route` over a
network stub, a one-team roster makes `route_rank_teams` raise TypeError. -/
theorem C3_include_geometry_type_error_witness :
    ([teamInside] ≠ ([] : List Team)) ∧
      route_rank_teams (osrm_route_impl netDemo) [teamInside] 0 0 20 true
        = .error .typeError :=
  ⟨by simp, (C3_include_geometry_type_error).1 netDemo [teamInside] 0 0 (by simp)⟩

/-- C2 counterexample: with a routing implementation that succeeds for team
`teamA2` and fails for team `teamB2`, `route_rank_teams` on the two-team
roster propagates the failure and returns NO result rows — the failure of one
candidate aborts the whole batch, so a partial batch is not representable,
refuting the claimed per-candidate isolation. -/
theorem C2_batch_abort_counterexample :
    route_rank_teams implFailSecond [teamA2, teamB2] 0 0 20 true
      = .error .routingError := by
  apply route_rank_teams_error_cases
  · intro t ht
    rcases List.mem_cons.mp ht with rfl | ht2
    · refine Or.inl ⟨resDemo, ?_⟩
      show (if ((0 : ℚ) == 1) = true then Except.error PyErr.routingError
        else Except.ok resDemo) = Except.ok resDemo
      rw [if_neg]
      simp only [beq_iff_eq]
      norm_num
    · rcases List.mem_cons.mp ht2 with rfl | ht3
      · refine Or.inr ?_
        show (if ((1 : ℚ) == 1) = true then Except.error PyErr.routingError
          else Except.ok resDemo) = Except.error PyErr.routingError
        rw [if_pos]
        simp
      · cases ht3
  · refine ⟨(teamB2, haversine_km 0 0 teamB2.latitude teamB2.longitude), ?_, ?_⟩
    · unfold preselect_by_air_distance
      rw [if_neg (by simp)]
      rw [List.take_of_length_le (by simp)]
      exact List.mem_mergeSort.mpr (by simp)
    · show (if ((1 : ℚ) == 1) = true then Except.error PyErr.routingError
        else Except.ok resDemo) = Except.error PyErr.routingError
      rw [if_pos]
      simp

/-- C2 amended: `route_rank_teams` is all-or-nothing: it either propagates an
error (aborting the whole batch) or returns one routed row for EVERY
preselected candidate; a partial batch with some candidates routed and others
failed is never produced. -/
theorem C2_all_or_nothing_amended :
    ∀ (impl : RoutingImpl) (teams : List Team) (slon slat : ℚ) (tn : Nat) (ig : Bool),
      (∃ e, route_rank_teams impl teams slon slat tn ig = .error e) ∨
        (∃ rows, route_rank_teams impl teams slon slat tn ig = .ok rows ∧
          rows.length = (preselect_by_air_distance teams slon slat tn).length) := by
  intro impl teams slon slat tn ig
  unfold route_rank_teams
  by_cases hc : (preselect_by_air_distance teams slon slat tn).isEmpty
  · right
    refine ⟨[], by rw [if_pos hc], ?_⟩
    rw [List.isEmpty_iff.mp hc]
    rfl
  · rw [if_neg hc]
    split
    · exact Or.inl ⟨_, rfl⟩
    · next rows0 heq =>
        right
        refine ⟨rows0.mergeSort durDistLeB, rfl, ?_⟩
        rw [List.length_mergeSort]
        exact runLoop_ok_length _ _ _ heq

/-- C10: none of the filtering or preselection operations mutates its input:
in the state-passing rendering of each source function the final value of
every input frame equals its initial value, and the result is the separately
produced new frame. -/
theorem C10_no_mutation :
    (∀ (teams : List Team) (iso : List IsoRow) (m : Int),
        (filter_teams_by_minutes_state teams iso m).1 = (teams, iso) ∧
          (filter_teams_by_minutes_state teams iso m).2
            = filter_teams_by_minutes teams iso m) ∧
      (∀ (teams : List Team) (bu : Option String),
        (filter_by_business_unit_state teams bu).1 = teams ∧
          (filter_by_business_unit_state teams bu).2 = filter_by_business_unit teams bu) ∧
      (∀ (teams : List Team) (fl : Option Int),
        (filter_by_internal_flag_state teams fl).1 = teams ∧
          (filter_by_internal_flag_state teams fl).2 = filter_by_internal_flag teams fl) ∧
      (∀ (teams : List Team) (bu : Option String) (fl : Option Int),
        (apply_team_filters_state teams bu fl).1 = teams ∧
          (apply_team_filters_state teams bu fl).2 = apply_team_filters teams bu fl) ∧
      (∀ (teams : List Team) (slon slat : ℚ) (tn : Nat),
        (preselect_by_air_distance_state teams slon slat tn).1 = teams ∧
          (preselect_by_air_distance_state teams slon slat tn).2
            = preselect_by_air_distance teams slon slat tn) := by
  refine ⟨?_, fun _ _ => ⟨rfl, rfl⟩, fun _ _ => ⟨rfl, rfl⟩, fun _ _ _ => ⟨rfl, rfl⟩, ?_⟩
  · intro teams iso m
    by_cases h : (iso.filter (fun r => r.minutes == m)).isEmpty <;>
      constructor <;>
        simp [filter_teams_by_minutes_state, filter_teams_by_minutes, h]
  · intro teams slon slat tn
    by_cases h : teams.isEmpty <;>
      constructor <;>
        simp [preselect_by_air_distance_state, preselect_by_air_distance, h]

end ResourceFinder
